import Mathlib

/-!
# Crate Digger — verification of the spec against the source

A shallow embedding of the parts of the Crate Digger repository that the
frozen claims are about, together with theorems settling each claim.

* `playlistTracksGET` embeds `src/app/api/playlist-tracks/route.ts`
  (cursor pagination, chunked artist-genre enrichment, genre attachment).
* `destinationAddPOST` embeds the destination-add route
  (check-then-add with a bounded duplicate check).
* `itunesPreviewGET` embeds the iTunes preview-search route.
* `handleSendToDestination`, `applySelectChange` embed the destination-slot
  handlers of `src/app/page.tsx`.
* `MachineState` / `step` embed the preview-playback race guard of
  `handlePreviewClick` in `src/app/page.tsx` as an event-interleaving
  machine (the only concurrent code in the repository).

Upstream HTTP calls are modelled by a `FetchResult` oracle: `ok` is a
response with `res.ok` true, `httpError` a response with `res.ok` false,
and `threw` a rejected promise (network error or a throwing body parse).
JavaScript `Set` iteration (insertion order) is modelled by
`insertUnique`; `Record` assignment by a prepend-association list.
-/

namespace CrateDigger

/-- Outcome of one upstream HTTP call: a response with `res.ok`,
a response with `!res.ok`, or a rejected promise. -/
inductive FetchResult (α : Type) where
  | ok : α → FetchResult α
  | httpError : FetchResult α
  | threw : FetchResult α
deriving DecidableEq

/-- An artist reference inside a playlist item's track
(`track.artists[k]`); `id = none` models a missing/falsy `artist.id`. -/
structure ArtistRef where
  id : Option String
deriving DecidableEq

/-- The `track` object of a playlist item; `artists = none` models a
missing `track.artists`.  `tid` stands for the track's identifying
payload (id/uri/name …), which the route never inspects. -/
structure TrackObj where
  tid : String
  artists : Option (List ArtistRef)
deriving DecidableEq

/-- One element of a tracks page's `items`; `track = none` models a null
`item.track`. -/
structure Item where
  track : Option TrackObj
deriving DecidableEq

/-- One page of the upstream paginated tracks listing: its `items` array
and its `next` cursor (a full URL upstream, abstracted to a `Nat` key). -/
structure TracksPage where
  items : List Item
  next : Option Nat
deriving DecidableEq

/-- The `while (nextUrl)` pagination loop of the playlist-tracks route
(route.ts lines 29–50): follow the `next` cursor, concatenating each
page's `items`; a `!res.ok` response or a thrown error aborts the whole
request with status 500.  `fuel` bounds the number of iterations (the
JS loop can diverge on a cyclic upstream); `none` means fuel ran out. -/
def paginateTracks (fetchPage : Nat → FetchResult TracksPage) :
    Nat → Option Nat → List Item → Option (Except Nat (List Item))
  | _, none, acc => some (Except.ok acc)
  | 0, some _, _ => none
  | fuel + 1, some u, acc =>
      match fetchPage u with
      | FetchResult.ok page => paginateTracks fetchPage fuel page.next (acc ++ page.items)
      | FetchResult.httpError => some (Except.error 500)
      | FetchResult.threw => some (Except.error 500)

/-- JS `Set.add`: append if not already present (insertion-ordered). -/
def insertUnique (l : List String) (x : String) : List String :=
  if x ∈ l then l else l ++ [x]

/-- Step 2 of the route (lines 70–82): collect the distinct artist ids of
all items, in first-occurrence order, skipping null tracks, missing
artist lists and falsy artist ids. -/
def collectArtistIds (items : List Item) : List String :=
  items.foldl
    (fun acc item =>
      match item.track with
      | none => acc
      | some t =>
          match t.artists with
          | none => acc
          | some as =>
              as.foldl
                (fun acc2 a =>
                  match a.id with
                  | some i => insertUnique acc2 i
                  | none => acc2)
                acc)
    []

/-- `artistIds.slice(i, i + 50)` chunking of the artist-id list
(lines 88–89), generalised over the chunk size. -/
def chunksOf (n : Nat) : List α → List (List α)
  | [] => []
  | x :: xs => (x :: xs.take (n - 1)) :: chunksOf n (xs.drop (n - 1))
termination_by l => l.length
decreasing_by
  simp only [List.length_drop, List.length_cons]
  omega

/-- One artist object of the batched `/v1/artists` response;
`genres = none` models a missing `genres` field (`artist.genres || []`). -/
structure ArtistObj where
  id : Option String
  genres : Option (List String)
deriving DecidableEq

/-- `artistGenresMap`: a JS record, modelled as a prepend-on-assign
association list (latest assignment found first). -/
abbrev GenresMap := List (String × List String)

/-- Record assignment `artistGenresMap[artist.id] = artist.genres || []`
for every artist of a chunk response that has a truthy id (lines 108–112). -/
def recordChunk (m : GenresMap) (arts : List ArtistObj) : GenresMap :=
  arts.foldl
    (fun acc a =>
      match a.id with
      | some i => (i, a.genres.getD []) :: acc
      | none => acc)
    m

/-- Step 3 of the route (lines 86–122): fetch artist chunks in order,
recording genres; a `!res.ok` response or a thrown error on any chunk
abandons enrichment (`none`, the degraded path). -/
def processChunks (fetchArtists : List String → FetchResult (List ArtistObj)) :
    List (List String) → GenresMap → Option GenresMap
  | [], m => some m
  | c :: cs, m =>
      match fetchArtists c with
      | FetchResult.ok arts => processChunks fetchArtists cs (recordChunk m arts)
      | FetchResult.httpError => none
      | FetchResult.threw => none

/-- `artistGenresMap[artist.id] || []` (line 132): lookup by an optional
artist id; a missing id or an absent key yields `[]`. -/
def lookupGenres (m : GenresMap) (id : Option String) : List String :=
  match id with
  | none => []
  | some i => ((m.find? (fun p => p.1 == i)).map Prod.snd).getD []

/-- The per-item `genresSet` of step 4 (lines 129–140): the union of the
genre lists of the item's artists, deduplicated in insertion order. -/
def aggGenres (m : GenresMap) (as : List ArtistRef) : List String :=
  as.foldl (fun acc a => (lookupGenres m a.id).foldl insertUnique acc) []

/-- An item of the route's response: the upstream item, plus the
`artist_genres` field when the route attached one. -/
structure ItemOut where
  item : Item
  artist_genres : Option (List String)
deriving DecidableEq

/-- Step 4 of the route (lines 125–142): items with a null track or no
artist list are returned unchanged; every other item gets the aggregated
genre set attached as `artist_genres`. -/
def attachGenres (m : GenresMap) (item : Item) : ItemOut :=
  match item.track with
  | none => ⟨item, none⟩
  | some t =>
      match t.artists with
      | none => ⟨item, none⟩
      | some as => ⟨item, some (aggGenres m as)⟩

/-- An HTTP response of a route: an error status, or a success payload. -/
inductive RouteResult (α : Type) where
  | error : Nat → RouteResult α
  | success : α → RouteResult α
deriving DecidableEq

/-- The whole `GET` handler of `src/app/api/playlist-tracks/route.ts`
(auth/param guards aside): paginate all tracks pages from `startUrl`,
then enrich with artist genres in chunks of 50, degrading to the raw
items when any chunk fails. -/
def playlistTracksGET (fetchPage : Nat → FetchResult TracksPage)
    (fetchArtists : List String → FetchResult (List ArtistObj))
    (fuel : Nat) (startUrl : Nat) : Option (RouteResult (List ItemOut)) :=
  match paginateTracks fetchPage fuel (some startUrl) [] with
  | none => none
  | some (Except.error s) => some (RouteResult.error s)
  | some (Except.ok allItems) =>
      let artistIds := collectArtistIds allItems
      if artistIds.isEmpty then
        some (RouteResult.success (allItems.map (attachGenres [])))
      else
        match processChunks fetchArtists (chunksOf 50 artistIds) [] with
        | none => some (RouteResult.success (allItems.map (fun i => ⟨i, none⟩)))
        | some m => some (RouteResult.success (allItems.map (attachGenres m)))

/-- The upstream serves, from cursor `start`, exactly the chain of pages
`chain` (each fetch of the recorded URL succeeds with the recorded page,
whose `next` cursor leads to the rest, ending in `none`). -/
def pageChain (fetchPage : Nat → FetchResult TracksPage) :
    Option Nat → List (Nat × TracksPage) → Prop
  | start, [] => start = none
  | start, (u, p) :: rest =>
      start = some u ∧ fetchPage u = FetchResult.ok p ∧ pageChain fetchPage p.next rest

/-- The upstream serves a chain of good pages from `start` whose last
`next` cursor is `u` (a position at which the next fetch happens). -/
def pageChainTo (fetchPage : Nat → FetchResult TracksPage) :
    Option Nat → List (Nat × TracksPage) → Nat → Prop
  | start, [], u => start = some u
  | start, (v, p) :: rest, u =>
      start = some v ∧ fetchPage v = FetchResult.ok p ∧ pageChainTo fetchPage p.next rest u

/-! ### Destination slots and the send handler (`src/app/page.tsx`) -/

/-- `DestinationMode` of page.tsx line 28. -/
inductive DestinationMode where
  | noneMode
  | existing
  | newMode
deriving DecidableEq

/-- A playlist as held in client state (only the fields the modelled
handlers read). -/
structure Playlist where
  id : String
  name : String
deriving DecidableEq

/-- `DestinationSlot` of page.tsx lines 30–37. -/
structure DestinationSlot where
  id : Nat
  mode : DestinationMode
  playlistId : Option String
  displayName : String
  newName : String
  sentTrackIds : List String
deriving DecidableEq

/-- Outcome of the `/api/destination-add` call made by the send handler:
an ok response reporting `added`, an ok response reporting a duplicate,
a non-ok response, or a rejected fetch. -/
inductive SendOutcome where
  | okAdded
  | okDuplicate
  | httpError
  | threw
deriving DecidableEq

/-- Result of one run of the send handler: the new `destinations` state
and whether the `/api/destination-add` network call was issued. -/
structure SendResult where
  destinations : List DestinationSlot
  addCalled : Bool
deriving DecidableEq

/-- The check `selectedPlaylistId && slot.playlistId === selectedPlaylistId`,
written inline both in the send handler (page.tsx line 545) and in the
mobile destination grid (lines 2254–2256). -/
def isSourcePlaylist (slot : DestinationSlot) (selectedPlaylistId : Option String) :
    Bool :=
  match selectedPlaylistId with
  | none => false
  | some s => slot.playlistId == some s

/-- `handleSendToDestination` of page.tsx lines 534–679 (its effect on
`destinations` and on the add call; the auto-remove block touches
neither).  Guards in source order: unknown slot, slot without an
existing playlist, slot targeting the open source playlist, track
already recorded for the slot.  Only an ok response records the track id
(lines 585–588 return on `!res.ok`; the catch swallows a rejection). -/
def handleSendToDestination (destinations : List DestinationSlot)
    (selectedPlaylistId : Option String) (trackId : String) (slotId : Nat)
    (outcome : SendOutcome) : SendResult :=
  match destinations.find? (fun s => s.id == slotId) with
  | none => ⟨destinations, false⟩
  | some slot =>
      if slot.mode ≠ DestinationMode.existing ∨ slot.playlistId = none then
        ⟨destinations, false⟩
      else if isSourcePlaylist slot selectedPlaylistId then
        ⟨destinations, false⟩
      else if trackId ∈ slot.sentTrackIds then
        ⟨destinations, false⟩
      else
        match outcome with
        | SendOutcome.httpError => ⟨destinations, true⟩
        | SendOutcome.threw => ⟨destinations, true⟩
        | _ =>
            ⟨destinations.map (fun s =>
                if s.id == slotId ∧ trackId ∉ s.sentTrackIds then
                  { s with sentTrackIds := s.sentTrackIds ++ [trackId] }
                else s),
             true⟩

/-- `enabled` of the mobile destination grid (page.tsx lines 2258–2261):
the slot button sends only when enabled. -/
def mobileSlotEnabled (slot : DestinationSlot) (selectedPlaylistId : Option String) :
    Bool :=
  slot.mode == DestinationMode.existing && slot.playlistId.isSome &&
    !(isSourcePlaylist slot selectedPlaylistId)

/-- The per-slot body of `handleDestinationSelectChange`
(page.tsx lines 423–454), applied to the slot whose id matches. -/
def applySelectChange (playlists : List Playlist) (value : String)
    (slot : DestinationSlot) : DestinationSlot :=
  if value = "" then
    { slot with mode := DestinationMode.noneMode, playlistId := none,
                displayName := "", newName := "", sentTrackIds := [] }
  else if value = "__new__" then
    { slot with mode := DestinationMode.newMode, playlistId := none,
                displayName := slot.newName, sentTrackIds := [] }
  else
    let pl := playlists.find? (fun p => p.id == value)
    let playlistChanged := slot.playlistId ≠ some value
    { slot with mode := DestinationMode.existing, playlistId := some value,
                displayName := (match pl with | some p => p.name | none => value),
                newName := "",
                sentTrackIds := if playlistChanged then [] else slot.sentTrackIds }

/-- `handleDestinationSelectChange` of page.tsx lines 421–456: map over
the slots, reconfiguring the one whose id matches. -/
def handleDestinationSelectChange (playlists : List Playlist)
    (destinations : List DestinationSlot) (slotId : Nat) (value : String) :
    List DestinationSlot :=
  destinations.map (fun slot =>
    if slot.id == slotId then applySelectChange playlists value slot else slot)

/-! ### The destination-add route (`app/api/destination-add/route.ts`) -/

/-- A response of the destination-add route. -/
inductive AddResponse where
  | badRequest
  | duplicate : String → AddResponse
  | added : String → AddResponse
  | serverError
deriving DecidableEq

/-- The `POST` handler of the destination-add route (auth guard aside).
`playlist` is the target playlist's item list upstream (`none` for a
null `item.track`); the route asks for `limit: 100, offset: 0`, so the
duplicate check sees `(playlist.drop 0).take 100`.  `dupeCheckThrows`
models a rejected `getPlaylistTracks` (caught, add still attempted);
`addThrows` a rejected `addTracksToPlaylist` (caught by the outer
handler, 500).  The second component records whether the add call was
issued. -/
def destinationAddPOST (playlistId trackUri : String)
    (playlist : List (Option String)) (dupeCheckThrows addThrows : Bool) :
    AddResponse × Bool :=
  if playlistId = "" ∨ trackUri = "" then (AddResponse.badRequest, false)
  else
    let alreadyThere :=
      if dupeCheckThrows then false
      else ((playlist.drop 0).take 100).any (fun u => u == some trackUri)
    if alreadyThere then (AddResponse.duplicate playlistId, false)
    else if addThrows then (AddResponse.serverError, true)
    else (AddResponse.added playlistId, true)

/-! ### The iTunes preview route (`app/api/itunes-preview/route.ts`) -/

/-- JS `String.prototype.trim` (strip leading and trailing
whitespace), modelled structurally over the character list. -/
def strTrim (s : String) : String :=
  ⟨((s.data.dropWhile Char.isWhitespace).reverse.dropWhile Char.isWhitespace).reverse⟩

/-- One result object of the iTunes search response;
`previewUrl = none` models a missing `previewUrl` (`?? null`). -/
structure ItunesResult where
  previewUrl : Option String
deriving DecidableEq

/-- The parsed iTunes search body; `results = none` models a missing
`results` field. -/
structure ItunesData where
  results : Option (List ItunesResult)
deriving DecidableEq

/-- The `GET` handler of the iTunes preview route.  The first component
is the response: `Except.ok p` is a 200 JSON body `{previewUrl: p}`,
`Except.error ()` the unhandled rejection (there is no try/catch around
the `fetch`/`json`, so a rejected promise escapes the handler).  The
second component records whether the upstream search was queried. -/
def itunesPreviewGET (trackName artistName : String)
    (search : FetchResult ItunesData) : Except Unit (Option String) × Bool :=
  let query := strTrim (trackName ++ " " ++ artistName)
  if query = "" then (Except.ok none, false)
  else
    match search with
    | FetchResult.threw => (Except.error (), true)
    | FetchResult.httpError => (Except.ok none, true)
    | FetchResult.ok data =>
        match data.results with
        | none => (Except.ok none, true)
        | some [] => (Except.ok none, true)
        | some (first :: _) => (Except.ok first.previewUrl, true)

/-! ### The preview-playback race guard (`handlePreviewClick`, page.tsx
lines 271–414)

`handlePreviewClick` is an async function; its suspension points are the
throttle `setTimeout`, the iTunes `fetch`, and `audio.play()`.  Each
attempt is modelled as a small program whose atomic blocks are the
synchronous stretches between those suspension points, and an execution
of the client is a list of events interleaving the blocks of any number
of attempts.  Shared state is the mutable state the handler touches:
`previewRequestIdRef` (`counter`), `playingTrackId` (`playing`),
`audioRef.current` presence (`audioPresent`) and
`lastItunesRequestTime` (`lastItunes`).  `queries` logs each iTunes
query as (time issued, last-query time the attempt read at throttle
entry); `playLog` logs each `setPlayingTrackId(track.id)` as
(attempt index, track id). -/

/-- Where the preview URL of the clicked track comes from: a first-party
or cached URL (`track.preview_url ||` a string override), a cached
null override (line 305: return immediately), or no cached value
(query iTunes). -/
inductive UrlSource where
  | direct : String → UrlSource
  | cachedNone : UrlSource
  | needFetch : UrlSource
deriving DecidableEq

/-- The per-attempt environment, fixed when the user clicks: the track,
its URL source, the iTunes response it would get (`none` covers a non-ok
response, a thrown fetch and a null `previewUrl`), and whether
`audio.play()` would resolve. -/
structure AttemptEnv where
  tid : String
  urlSource : UrlSource
  fetchedUrl : Option String
  playOk : Bool
deriving DecidableEq

/-- Program counter of one attempt: not yet started, sleeping in the
throttle until the stored wake time, awaiting the iTunes fetch,
awaiting `audio.play()`, or returned. -/
inductive PC where
  | notStarted
  | sleeping : Nat → PC
  | fetching
  | awaitingPlay
  | done
deriving DecidableEq

/-- Dynamic state of one attempt: its program counter, the request id it
captured (`myRequestId`, 0 before capture), and the
`lastItunesRequestTime` value it read when entering the throttle. -/
structure AttemptState where
  pc : PC
  myId : Nat
  lRead : Option (Option Nat)
deriving DecidableEq

def initAttempt : AttemptState := ⟨PC.notStarted, 0, none⟩

/-- The shared mutable state of the page, plus the two event logs. -/
structure Shared where
  counter : Nat
  playing : Option String
  audioPresent : Bool
  lastItunes : Option Nat
  queries : List (Nat × Option Nat)
  playLog : List (Nat × String)
deriving DecidableEq

structure MachineState where
  shared : Shared
  attempts : List (AttemptEnv × AttemptState)
deriving DecidableEq

/-- The synchronous prefix of `handlePreviewClick` (lines 271–331 and,
when a URL is already at hand, through to `play()` at line 402),
executed at wall-clock time `t`:
* toggle of the playing track (lines 272–284): bump the counter, tear
  down, clear `playingTrackId`, return;
* teardown of a different playing track when an audio element exists
  (lines 286–294): bump the counter, clear `playingTrackId`;
* capture `myRequestId = ++previewRequestIdRef.current` (line 296);
* cached null override (lines 305–308): return;
* no URL (lines 310–331): read `lastItunesRequestTime`; sleep out the
  remaining gap when within 300 ms, else record the time and issue the
  iTunes query, suspending on the fetch;
* URL at hand: the request-id checks (lines 382, 400) pass inside this
  same synchronous block, the audio element is (re)created, and the
  attempt suspends on `play()`.

`teardownOther` is the teardown of lines 286–294 (`playingTrackId &&
playingTrackId !== track.id && audioRef.current`; inside the handler's
non-toggle branch `playing ≠ some tid` already holds, so the middle
conjunct is implied): bump the counter, clear `playingTrackId`. -/
def teardownOther (sh : Shared) : Shared :=
  if sh.playing ≠ none ∧ sh.audioPresent = true then
    { sh with counter := sh.counter + 1, playing := none }
  else sh

def startRun (env : AttemptEnv) (t : Nat) (sh : Shared) (a : AttemptState) :
    Shared × AttemptState :=
  if sh.playing = some env.tid then
    ({ sh with counter := sh.counter + 1, playing := none }, { a with pc := PC.done })
  else
    let sh1 := teardownOther sh
    let myId := sh1.counter + 1
    let sh2 := { sh1 with counter := myId }
    let a2 := { a with myId := myId }
    match env.urlSource with
    | UrlSource.cachedNone => (sh2, { a2 with pc := PC.done })
    | UrlSource.needFetch =>
        let a3 := { a2 with lRead := some sh2.lastItunes }
        match sh2.lastItunes with
        | some l =>
            if t < l + 300 then (sh2, { a3 with pc := PC.sleeping (l + 300) })
            else
              ({ sh2 with lastItunes := some t,
                          queries := sh2.queries ++ [(t, some l)] },
               { a3 with pc := PC.fetching })
        | none =>
            ({ sh2 with lastItunes := some t,
                        queries := sh2.queries ++ [(t, none)] },
             { a3 with pc := PC.fetching })
    | UrlSource.direct _ =>
        ({ sh2 with audioPresent := true }, { a2 with pc := PC.awaitingPlay })

/-- Resuming from the throttle sleep at time `t` (lines 318–331): record
`lastItunesRequestTime = Date.now()` and issue the iTunes query,
suspending on the fetch. -/
def wakeRun (t : Nat) (sh : Shared) (a : AttemptState) : Shared × AttemptState :=
  ({ sh with lastItunes := some t,
             queries := sh.queries ++ [(t, a.lRead.getD none)] },
   { a with pc := PC.fetching })

/-- Resuming when the iTunes fetch settles (lines 332–402): a missing
URL returns; otherwise the request-id check at line 382 aborts a stale
attempt, and a current one sets up the audio element (both checks, 382
and 400, sit in this one synchronous block) and suspends on
`play()`. -/
def fetchDoneRun (env : AttemptEnv) (sh : Shared) (a : AttemptState) :
    Shared × AttemptState :=
  match env.fetchedUrl with
  | none => (sh, { a with pc := PC.done })
  | some _ =>
      if sh.counter ≠ a.myId then (sh, { a with pc := PC.done })
      else ({ sh with audioPresent := true }, { a with pc := PC.awaitingPlay })

/-- Resuming when `play()` settles (lines 402–413): on success the
`.then` callback sets `playingTrackId(track.id)` only if the captured id
still equals the counter; the `.catch` mutates nothing modelled. -/
def playDoneRun (i : Nat) (env : AttemptEnv) (sh : Shared) (a : AttemptState) :
    Shared × AttemptState :=
  if env.playOk = true ∧ sh.counter = a.myId then
    ({ sh with playing := some env.tid, playLog := sh.playLog ++ [(i, env.tid)] },
     { a with pc := PC.done })
  else (sh, { a with pc := PC.done })

/-- One scheduler event: start attempt `i` at time `t`, wake it from its
throttle sleep at time `t`, settle its iTunes fetch, or settle its
`play()` call.  An event whose guard does not hold (wrong program
counter, wake before the stored wake time, unknown index) is a no-op. -/
inductive Event where
  | start : Nat → Nat → Event
  | wake : Nat → Nat → Event
  | fetchDone : Nat → Event
  | playDone : Nat → Event
deriving DecidableEq

def step (s : MachineState) (e : Event) : MachineState :=
  match e with
  | Event.start i t =>
      match s.attempts[i]? with
      | none => s
      | some (env, a) =>
          if a.pc = PC.notStarted then
            let r := startRun env t s.shared a
            ⟨r.1, s.attempts.set i (env, r.2)⟩
          else s
  | Event.wake i t =>
      match s.attempts[i]? with
      | none => s
      | some (env, a) =>
          match a.pc with
          | PC.sleeping w =>
              if w ≤ t then
                let r := wakeRun t s.shared a
                ⟨r.1, s.attempts.set i (env, r.2)⟩
              else s
          | _ => s
  | Event.fetchDone i =>
      match s.attempts[i]? with
      | none => s
      | some (env, a) =>
          if a.pc = PC.fetching then
            let r := fetchDoneRun env s.shared a
            ⟨r.1, s.attempts.set i (env, r.2)⟩
          else s
  | Event.playDone i =>
      match s.attempts[i]? with
      | none => s
      | some (env, a) =>
          if a.pc = PC.awaitingPlay then
            let r := playDoneRun i env s.shared a
            ⟨r.1, s.attempts.set i (env, r.2)⟩
          else s

def run (s : MachineState) : List Event → MachineState :=
  List.foldl step s

/-- A fresh page: counter 0, nothing playing, no audio element yet, no
iTunes query recorded, and one not-yet-started attempt per click the
scenario will make. -/
def initState (envs : List AttemptEnv) : MachineState :=
  ⟨⟨0, none, false, none, [], []⟩, envs.map (fun e => (e, initAttempt))⟩

/-- The playLog entries written by attempt `i`. -/
def playLogFor (i : Nat) (log : List (Nat × String)) : List (Nat × String) :=
  log.filter (fun e => e.1 == i)

/-- Attempt `i` is stale: it has run its synchronous prefix and the
request counter has moved past the id it captured. -/
def stale (s : MachineState) (i : Nat) : Prop :=
  ∃ env a, s.attempts[i]? = some (env, a) ∧
    a.pc ≠ PC.notStarted ∧ a.myId < s.shared.counter

/-- Every captured request id is at most the current counter. -/
def idsBounded (s : MachineState) : Prop :=
  ∀ p ∈ s.attempts, (p.2).myId ≤ s.shared.counter

/-- Every recorded iTunes query was issued at least 300 ms after the
last-query time its attempt read at throttle entry. -/
def queriesSpaced (s : MachineState) : Prop :=
  ∀ q ∈ s.shared.queries, ∀ l, q.2 = some l → l + 300 ≤ q.1

/-- A sleeping attempt read `some l` at throttle entry and wakes at
`l + 300`. -/
def sleepConsistent (s : MachineState) : Prop :=
  ∀ p ∈ s.attempts, ∀ w, (p.2).pc = PC.sleeping w →
    ∃ l, (p.2).lRead = some (some l) ∧ w = l + 300

/-! ### Demo upstream instances used by the witnesses -/

/-- A configured slot targeting playlist `pl-dest`, nothing sent yet. -/
def demoSlot : DestinationSlot :=
  ⟨1, DestinationMode.existing, some "pl-dest", "Crate A", "", []⟩

/-- An item whose track has no credited artist ids. -/
def demoItem (n : String) : Item := ⟨some ⟨n, some []⟩⟩

/-- An item whose track credits artist `a1`. -/
def demoItemA : Item := ⟨some ⟨"t1", some [⟨some "a1"⟩]⟩⟩

def demoPage0 : TracksPage := ⟨[demoItem "t1", demoItem "t2"], some 1⟩

def demoPage1 : TracksPage := ⟨[demoItem "t3"], none⟩

/-- A two-page upstream: URL 0 links to URL 1, which is the last page. -/
def demoFetchPage : Nat → FetchResult TracksPage := fun u =>
  if u = 0 then FetchResult.ok demoPage0
  else if u = 1 then FetchResult.ok demoPage1
  else FetchResult.httpError

/-- An upstream whose first page is fine but whose second fetch fails. -/
def demoFetchPageBad : Nat → FetchResult TracksPage := fun u =>
  if u = 0 then FetchResult.ok demoPage0
  else FetchResult.httpError

/-- A single-page upstream whose item credits artist `a1`. -/
def demoFetchPageA : Nat → FetchResult TracksPage := fun u =>
  if u = 0 then FetchResult.ok ⟨[demoItemA], none⟩
  else FetchResult.httpError

/-- A preview attempt whose track needs an iTunes lookup. -/
def demoEnvFetch (n : String) : AttemptEnv :=
  ⟨n, UrlSource.needFetch, some "http://p/a.m4a", true⟩

/-- A preview attempt whose track has a first-party preview URL. -/
def demoEnvDirect (n : String) : AttemptEnv :=
  ⟨n, UrlSource.direct "http://p/b.m4a", none, true⟩

/-! ### Pagination lemmas -/

theorem chunksOf_nil (n : Nat) : chunksOf n ([] : List α) = [] := by
  simp [chunksOf]

theorem chunksOf_cons (n : Nat) (x : α) (xs : List α) :
    chunksOf n (x :: xs) = (x :: xs.take (n - 1)) :: chunksOf n (xs.drop (n - 1)) := by
  simp [chunksOf]

theorem chunksOf_singleton (n : Nat) (x : α) : chunksOf n [x] = [[x]] := by
  rw [chunksOf_cons]
  simp [chunksOf_nil]

theorem paginateTracks_chain (fetchPage : Nat → FetchResult TracksPage) :
    ∀ (chain : List (Nat × TracksPage)) (start : Option Nat) (acc : List Item) (fuel : Nat),
      pageChain fetchPage start chain → chain.length ≤ fuel →
      paginateTracks fetchPage fuel start acc =
        some (Except.ok (acc ++ (chain.map (fun x => x.2.items)).flatten)) := by
  intro chain
  induction chain with
  | nil =>
      intro start acc fuel h _
      unfold pageChain at h
      subst h
      cases fuel <;> simp [paginateTracks]
  | cons hd tl ih =>
      intro start acc fuel h hf
      obtain ⟨h1, h2, h3⟩ := h
      subst h1
      cases fuel with
      | zero => simp at hf
      | succ n =>
          have hrec := ih hd.2.next (acc ++ hd.2.items) n h3 (by simpa using hf)
          unfold paginateTracks
          rw [h2]
          dsimp only
          rw [hrec]
          simp

theorem paginateTracks_chainTo_fail (fetchPage : Nat → FetchResult TracksPage) (u : Nat)
    (hbad : ∀ page, fetchPage u ≠ FetchResult.ok page) :
    ∀ (chain : List (Nat × TracksPage)) (start : Option Nat) (acc : List Item) (fuel : Nat),
      pageChainTo fetchPage start chain u → chain.length < fuel →
      paginateTracks fetchPage fuel start acc = some (Except.error 500) := by
  intro chain
  induction chain with
  | nil =>
      intro start acc fuel h hf
      unfold pageChainTo at h
      subst h
      cases fuel with
      | zero => simp at hf
      | succ n =>
          unfold paginateTracks
          cases hres : fetchPage u with
          | ok page => exact absurd hres (hbad page)
          | httpError => rfl
          | threw => rfl
  | cons hd tl ih =>
      intro start acc fuel h hf
      obtain ⟨h1, h2, h3⟩ := h
      subst h1
      cases fuel with
      | zero => simp at hf
      | succ n =>
          unfold paginateTracks
          rw [h2]
          exact ih _ _ _ h3 (by simpa using hf)

theorem processChunks_fail (fetchArtists : List String → FetchResult (List ArtistObj)) :
    ∀ (cs : List (List String)) (m : GenresMap),
      (∃ c ∈ cs, ∀ arts, fetchArtists c ≠ FetchResult.ok arts) →
      processChunks fetchArtists cs m = none := by
  intro cs
  induction cs with
  | nil => intro m h; simp at h
  | cons c cs ih =>
      intro m h
      obtain ⟨c0, hc0, hbad⟩ := h
      unfold processChunks
      cases hg : fetchArtists c with
      | ok arts =>
          rcases List.mem_cons.mp hc0 with rfl | hmem
          · exact absurd hg (hbad arts)
          · exact ih _ ⟨c0, hmem, hbad⟩
      | httpError => rfl
      | threw => rfl

theorem attachGenres_item (m : GenresMap) (item : Item) :
    (attachGenres m item).item = item := by
  unfold attachGenres
  rcases item with ⟨_ | t⟩
  · rfl
  · rcases t with ⟨tid, _ | as⟩ <;> rfl

theorem map_attachGenres_item (m : GenresMap) (items : List Item) :
    ((items.map (attachGenres m)).map ItemOut.item) = items := by
  simp [List.map_map, Function.comp_def, attachGenres_item]

/-! ### Shape of the route's result on each control path -/

theorem playlistTracksGET_pagError (fetchPage : Nat → FetchResult TracksPage)
    (fetchArtists : List String → FetchResult (List ArtistObj))
    (fuel startUrl s : Nat)
    (hpag : paginateTracks fetchPage fuel (some startUrl) [] = some (Except.error s)) :
    playlistTracksGET fetchPage fetchArtists fuel startUrl =
      some (RouteResult.error s) := by
  unfold playlistTracksGET
  rw [hpag]

theorem playlistTracksGET_noArtists (fetchPage : Nat → FetchResult TracksPage)
    (fetchArtists : List String → FetchResult (List ArtistObj))
    (fuel startUrl : Nat) (L : List Item)
    (hpag : paginateTracks fetchPage fuel (some startUrl) [] = some (Except.ok L))
    (hids : (collectArtistIds L).isEmpty = true) :
    playlistTracksGET fetchPage fetchArtists fuel startUrl =
      some (RouteResult.success (L.map (attachGenres []))) := by
  unfold playlistTracksGET
  rw [hpag]
  dsimp only
  rw [if_pos hids]

theorem playlistTracksGET_degraded (fetchPage : Nat → FetchResult TracksPage)
    (fetchArtists : List String → FetchResult (List ArtistObj))
    (fuel startUrl : Nat) (L : List Item)
    (hpag : paginateTracks fetchPage fuel (some startUrl) [] = some (Except.ok L))
    (hids : (collectArtistIds L).isEmpty = false)
    (hpc : processChunks fetchArtists (chunksOf 50 (collectArtistIds L)) [] = none) :
    playlistTracksGET fetchPage fetchArtists fuel startUrl =
      some (RouteResult.success (L.map (fun i => ⟨i, none⟩))) := by
  unfold playlistTracksGET
  rw [hpag]
  dsimp only
  rw [if_neg (by simp [hids]), hpc]

theorem playlistTracksGET_enriched (fetchPage : Nat → FetchResult TracksPage)
    (fetchArtists : List String → FetchResult (List ArtistObj))
    (fuel startUrl : Nat) (L : List Item) (m : GenresMap)
    (hpag : paginateTracks fetchPage fuel (some startUrl) [] = some (Except.ok L))
    (hids : (collectArtistIds L).isEmpty = false)
    (hpc : processChunks fetchArtists (chunksOf 50 (collectArtistIds L)) [] = some m) :
    playlistTracksGET fetchPage fetchArtists fuel startUrl =
      some (RouteResult.success (L.map (attachGenres m))) := by
  unfold playlistTracksGET
  rw [hpag]
  dsimp only
  rw [if_neg (by simp [hids]), hpc]

/-- C1: the track-aggregation endpoint follows the upstream `next`
cursor until it is null and returns exactly the concatenation of all
pages' items — every item of every page exactly once, in upstream
page-and-position order. -/
theorem aggregation_returns_all_pages_in_order
    (fetchPage : Nat → FetchResult TracksPage)
    (fetchArtists : List String → FetchResult (List ArtistObj))
    (chain : List (Nat × TracksPage)) (startUrl fuel : Nat)
    (hchain : pageChain fetchPage (some startUrl) chain)
    (hfuel : chain.length ≤ fuel) :
    ∃ out : List ItemOut,
      playlistTracksGET fetchPage fetchArtists fuel startUrl =
        some (RouteResult.success out) ∧
      out.map ItemOut.item = (chain.map (fun x => x.2.items)).flatten := by
  have hpag := paginateTracks_chain fetchPage chain _ [] fuel hchain hfuel
  rw [List.nil_append] at hpag
  set L := (chain.map (fun x => x.2.items)).flatten with hL
  cases hids : (collectArtistIds L).isEmpty with
  | true =>
      exact ⟨_, playlistTracksGET_noArtists fetchPage fetchArtists fuel startUrl L hpag hids,
        map_attachGenres_item _ _⟩
  | false =>
      cases hpc : processChunks fetchArtists (chunksOf 50 (collectArtistIds L)) [] with
      | none =>
          refine ⟨_, playlistTracksGET_degraded fetchPage fetchArtists fuel startUrl L
            hpag hids hpc, ?_⟩
          simp [List.map_map, Function.comp_def]
      | some m =>
          exact ⟨_, playlistTracksGET_enriched fetchPage fetchArtists fuel startUrl L m
            hpag hids hpc, map_attachGenres_item _ _⟩

theorem aggregation_returns_all_pages_in_order_witness :
    ∃ out : List ItemOut,
      playlistTracksGET demoFetchPage (fun _ => FetchResult.threw) 2 0 =
        some (RouteResult.success out) ∧
      out.map ItemOut.item =
        (([(0, demoPage0), (1, demoPage1)].map
            (fun x : Nat × TracksPage => x.2.items)).flatten) :=
  aggregation_returns_all_pages_in_order demoFetchPage (fun _ => FetchResult.threw)
    [(0, demoPage0), (1, demoPage1)] 0 2
    ⟨rfl, rfl, rfl, rfl, rfl⟩ (by decide)

/-- C3: a failure (non-ok or thrown) while fetching any tracks page
fails the whole request with an error status, while a failure on any
artist-genre chunk returns a success response with all aggregated items
and no genre data attached. -/
theorem pagination_fails_hard_enrichment_degrades :
    (∀ (fetchPage : Nat → FetchResult TracksPage)
       (fetchArtists : List String → FetchResult (List ArtistObj))
       (chain : List (Nat × TracksPage)) (startUrl u fuel : Nat),
        pageChainTo fetchPage (some startUrl) chain u →
        (∀ page, fetchPage u ≠ FetchResult.ok page) →
        chain.length < fuel →
        playlistTracksGET fetchPage fetchArtists fuel startUrl =
          some (RouteResult.error 500)) ∧
    (∀ (fetchPage : Nat → FetchResult TracksPage)
       (fetchArtists : List String → FetchResult (List ArtistObj))
       (chain : List (Nat × TracksPage)) (startUrl fuel : Nat),
        pageChain fetchPage (some startUrl) chain →
        chain.length ≤ fuel →
        (∃ c ∈ chunksOf 50 (collectArtistIds ((chain.map (fun x => x.2.items)).flatten)),
            ∀ arts, fetchArtists c ≠ FetchResult.ok arts) →
        playlistTracksGET fetchPage fetchArtists fuel startUrl =
          some (RouteResult.success
            (((chain.map (fun x => x.2.items)).flatten).map (fun i => ⟨i, none⟩)))) := by
  constructor
  · intro fetchPage fetchArtists chain startUrl u fuel hchain hbad hfuel
    exact playlistTracksGET_pagError fetchPage fetchArtists fuel startUrl 500
      (paginateTracks_chainTo_fail fetchPage u hbad chain _ [] fuel hchain hfuel)
  · intro fetchPage fetchArtists chain startUrl fuel hchain hfuel hfail
    have hpag := paginateTracks_chain fetchPage chain _ [] fuel hchain hfuel
    rw [List.nil_append] at hpag
    set L := (chain.map (fun x => x.2.items)).flatten with hL
    cases hids : (collectArtistIds L).isEmpty with
    | true =>
        exfalso
        obtain ⟨c, hc, _⟩ := hfail
        rw [List.isEmpty_iff] at hids
        rw [hids] at hc
        simp [chunksOf] at hc
    | false =>
        exact playlistTracksGET_degraded fetchPage fetchArtists fuel startUrl L hpag hids
          (processChunks_fail fetchArtists _ [] hfail)

theorem pagination_fails_hard_enrichment_degrades_witness :
    playlistTracksGET demoFetchPageBad (fun _ => FetchResult.threw) 2 0 =
      some (RouteResult.error 500) ∧
    playlistTracksGET demoFetchPageA (fun _ => FetchResult.threw) 1 0 =
      some (RouteResult.success [⟨demoItemA, none⟩]) :=
  ⟨pagination_fails_hard_enrichment_degrades.1 demoFetchPageBad
      (fun _ => FetchResult.threw) [(0, demoPage0)] 0 1 2
      ⟨rfl, rfl, rfl⟩
      (by intro page h; simp [demoFetchPageBad] at h)
      (by decide),
   pagination_fails_hard_enrichment_degrades.2 demoFetchPageA
      (fun _ => FetchResult.threw) [(0, ⟨[demoItemA], none⟩)] 0 1
      ⟨rfl, rfl, rfl⟩ (by decide)
      ⟨["a1"], (chunksOf_singleton 50 "a1").symm ▸ List.mem_singleton.mpr rfl,
        by intro arts h; simp at h⟩⟩

/-! ### Genre aggregation (step 4 of the route) -/

theorem mem_insertUnique (l : List String) (x y : String) :
    y ∈ insertUnique l x ↔ y ∈ l ∨ y = x := by
  unfold insertUnique
  split
  · rename_i h
    constructor
    · exact Or.inl
    · rintro (hy | rfl)
      · exact hy
      · exact h
  · simp

theorem nodup_insertUnique (l : List String) (x : String) (h : l.Nodup) :
    (insertUnique l x).Nodup := by
  unfold insertUnique
  split
  · exact h
  · rename_i hx
    rw [List.nodup_append]
    refine ⟨h, List.nodup_singleton x, ?_⟩
    intro a ha hax
    rw [List.mem_singleton] at hax
    subst hax
    exact hx ha

theorem mem_foldl_insertUnique (gs : List String) (acc : List String) (y : String) :
    y ∈ gs.foldl insertUnique acc ↔ y ∈ acc ∨ y ∈ gs := by
  induction gs generalizing acc with
  | nil => simp
  | cons g gs ih =>
      rw [List.foldl_cons, ih, mem_insertUnique]
      simp [or_assoc]

theorem nodup_foldl_insertUnique (gs : List String) (acc : List String) (h : acc.Nodup) :
    (gs.foldl insertUnique acc).Nodup := by
  induction gs generalizing acc with
  | nil => exact h
  | cons g gs ih => exact ih _ (nodup_insertUnique _ _ h)

theorem mem_aggGenres_aux (m : GenresMap) (as : List ArtistRef) (acc : List String)
    (y : String) :
    y ∈ as.foldl (fun acc a => (lookupGenres m a.id).foldl insertUnique acc) acc ↔
      y ∈ acc ∨ ∃ a ∈ as, y ∈ lookupGenres m a.id := by
  induction as generalizing acc with
  | nil => simp
  | cons a as ih =>
      rw [List.foldl_cons, ih, mem_foldl_insertUnique]
      simp [or_assoc]

theorem mem_aggGenres (m : GenresMap) (as : List ArtistRef) (y : String) :
    y ∈ aggGenres m as ↔ ∃ a ∈ as, y ∈ lookupGenres m a.id := by
  unfold aggGenres
  rw [mem_aggGenres_aux]
  simp

theorem nodup_aggGenres (m : GenresMap) (as : List ArtistRef) :
    (aggGenres m as).Nodup := by
  unfold aggGenres
  generalize hacc : ([] : List String) = acc
  have hnd : acc.Nodup := hacc ▸ List.nodup_nil
  clear hacc
  induction as generalizing acc with
  | nil => exact hnd
  | cons a as ih => exact ih _ (nodup_foldl_insertUnique _ _ hnd)

/-- C6: every item whose track has an artists list gets `artist_genres`
equal to the deduplicated union of its artists' genre lists; genre
membership depends only on the artist set, so tracks with the same
artist set receive identical genre sets, and an artist's genres
propagate to every track crediting that artist. -/
theorem genres_are_dedup_union_and_propagate :
    (∀ (m : GenresMap) (item : Item) (t : TrackObj) (as : List ArtistRef),
        item.track = some t → t.artists = some as →
        attachGenres m item = ⟨item, some (aggGenres m as)⟩) ∧
    (∀ (m : GenresMap) (as : List ArtistRef) (g : String),
        g ∈ aggGenres m as ↔ ∃ a ∈ as, g ∈ lookupGenres m a.id) ∧
    (∀ (m : GenresMap) (as : List ArtistRef), (aggGenres m as).Nodup) ∧
    (∀ (m : GenresMap) (as₁ as₂ : List ArtistRef),
        (∀ a, a ∈ as₁ ↔ a ∈ as₂) →
        ∀ g, g ∈ aggGenres m as₁ ↔ g ∈ aggGenres m as₂) ∧
    (∀ (m : GenresMap) (as : List ArtistRef) (a : ArtistRef) (g : String),
        a ∈ as → g ∈ lookupGenres m a.id → g ∈ aggGenres m as) := by
  refine ⟨?_, mem_aggGenres, nodup_aggGenres, ?_, ?_⟩
  · intro m item t as ht has
    unfold attachGenres
    rw [ht]
    dsimp only
    rw [has]
  · intro m as₁ as₂ hset g
    rw [mem_aggGenres, mem_aggGenres]
    constructor
    · rintro ⟨a, ha, hg⟩
      exact ⟨a, (hset a).mp ha, hg⟩
    · rintro ⟨a, ha, hg⟩
      exact ⟨a, (hset a).mpr ha, hg⟩
  · intro m as a g ha hg
    exact (mem_aggGenres m as g).mpr ⟨a, ha, hg⟩

theorem genres_are_dedup_union_and_propagate_witness :
    attachGenres [("a1", ["house", "techno"])] demoItemA =
      ⟨demoItemA, some (aggGenres [("a1", ["house", "techno"])] [⟨some "a1"⟩])⟩ ∧
    ("techno" ∈ aggGenres [("a1", ["house", "techno"])] [⟨some "a1"⟩] ↔
      ∃ a ∈ [(⟨some "a1"⟩ : ArtistRef)],
        "techno" ∈ lookupGenres [("a1", ["house", "techno"])] a.id) ∧
    "techno" ∈ aggGenres [("a1", ["house", "techno"])] [⟨some "a1"⟩] :=
  ⟨genres_are_dedup_union_and_propagate.1 [("a1", ["house", "techno"])] demoItemA
      ⟨"t1", some [⟨some "a1"⟩]⟩ [⟨some "a1"⟩] rfl rfl,
   genres_are_dedup_union_and_propagate.2.1 [("a1", ["house", "techno"])] [⟨some "a1"⟩]
      "techno",
   genres_are_dedup_union_and_propagate.2.2.2.2 [("a1", ["house", "techno"])] [⟨some "a1"⟩]
      ⟨some "a1"⟩ "techno" (List.mem_singleton.mpr rfl) (by decide)⟩

/-! ### Destination sends (claims C4, C5, C9) -/

/-- C5: a destination slot whose target playlist equals the currently
open source playlist never triggers a send: the handler returns before
any network call and leaves the slots unchanged, and the mobile grid
button for such a slot is disabled. -/
theorem same_playlist_send_blocked
    (destinations : List DestinationSlot) (pid trackId : String) (slotId : Nat)
    (outcome : SendOutcome) (slot : DestinationSlot)
    (hfind : destinations.find? (fun s => s.id == slotId) = some slot)
    (hslot : slot.playlistId = some pid) :
    handleSendToDestination destinations (some pid) trackId slotId outcome =
      ⟨destinations, false⟩ ∧
    mobileSlotEnabled slot (some pid) = false := by
  constructor
  · unfold handleSendToDestination
    rw [hfind]
    dsimp only
    by_cases h1 : slot.mode ≠ DestinationMode.existing ∨ slot.playlistId = none
    · rw [if_pos h1]
    · rw [if_neg h1]
      have h2 : isSourcePlaylist slot (some pid) = true := by
        simp [isSourcePlaylist, hslot]
      rw [h2]
      rfl
  · simp [mobileSlotEnabled, isSourcePlaylist, hslot]

theorem same_playlist_send_blocked_witness :
    handleSendToDestination [demoSlot] (some "pl-dest") "t1" 1 SendOutcome.okAdded =
      ⟨[demoSlot], false⟩ ∧
    mobileSlotEnabled demoSlot (some "pl-dest") = false :=
  same_playlist_send_blocked [demoSlot] "pl-dest" "t1" 1 SendOutcome.okAdded demoSlot
    (by decide) (by decide)

/-- C4 counterexample: a send whose add request gets a non-ok response
completes without recording the track id, so a second send of the same
(slot, track) pair issues the add call again — two add calls in one
session for the same pair, and no recording after the first send. -/
theorem send_idempotence_counterexample :
    handleSendToDestination [demoSlot] (some "pl-src") "t1" 1 SendOutcome.httpError =
      ⟨[demoSlot], true⟩ ∧
    (handleSendToDestination [demoSlot] (some "pl-src") "t1" 1
        SendOutcome.okAdded).addCalled = true := by
  decide

/-- C4 amended: a send whose add request receives an ok response (added
or duplicate) records the track id in the slot's `sentTrackIds`, and a
send for a (slot, track) pair already recorded returns without issuing
the add call and leaves the slots unchanged; a send whose add request
fails (non-ok or thrown) records nothing, so only sends after a
successful one are suppressed. -/
theorem send_idempotent_after_ok :
    (∀ (destinations : List DestinationSlot) (sel : Option String)
       (trackId : String) (slotId : Nat) (outcome : SendOutcome),
        (outcome = SendOutcome.okAdded ∨ outcome = SendOutcome.okDuplicate) →
        (handleSendToDestination destinations sel trackId slotId outcome).addCalled =
          true →
        ∀ s ∈ (handleSendToDestination destinations sel trackId slotId
                outcome).destinations,
          s.id = slotId → trackId ∈ s.sentTrackIds) ∧
    (∀ (destinations : List DestinationSlot) (sel : Option String)
       (trackId : String) (slotId : Nat) (outcome : SendOutcome)
       (slot : DestinationSlot),
        destinations.find? (fun s => s.id == slotId) = some slot →
        trackId ∈ slot.sentTrackIds →
        handleSendToDestination destinations sel trackId slotId outcome =
          ⟨destinations, false⟩) := by
  constructor
  · intro dests sel tid sid outcome hok hcalled s hs hsid
    unfold handleSendToDestination at hcalled hs
    cases hfind : dests.find? (fun s => s.id == sid) with
    | none => rw [hfind] at hcalled; simp at hcalled
    | some slot =>
        rw [hfind] at hcalled hs
        dsimp only at hcalled hs
        by_cases h1 : slot.mode ≠ DestinationMode.existing ∨ slot.playlistId = none
        · rw [if_pos h1] at hcalled; simp at hcalled
        · rw [if_neg h1] at hcalled hs
          by_cases h2 : isSourcePlaylist slot sel = true
          · rw [if_pos h2] at hcalled; simp at hcalled
          · rw [if_neg h2] at hcalled hs
            by_cases h3 : tid ∈ slot.sentTrackIds
            · rw [if_pos h3] at hcalled; simp at hcalled
            · rw [if_neg h3] at hcalled hs
              rcases hok with rfl | rfl <;>
              · dsimp only at hs
                obtain ⟨s₀, hs₀, rfl⟩ := List.mem_map.mp hs
                by_cases h4 : (s₀.id == sid) = true ∧ tid ∉ s₀.sentTrackIds
                · rw [if_pos h4]
                  simp
                · rw [if_neg h4] at hsid ⊢
                  rcases not_and_or.mp h4 with h5 | h5
                  · exact absurd (by simp [hsid]) h5
                  · simpa using h5
  · intro dests sel tid sid outcome slot hfind hmem
    unfold handleSendToDestination
    rw [hfind]
    dsimp only
    by_cases h1 : slot.mode ≠ DestinationMode.existing ∨ slot.playlistId = none
    · rw [if_pos h1]
    · rw [if_neg h1]
      by_cases h2 : isSourcePlaylist slot sel = true
      · rw [if_pos h2]
      · rw [if_neg h2, if_pos hmem]

theorem send_idempotent_after_ok_witness :
    ("t1" ∈ ({demoSlot with sentTrackIds := ["t1"]} : DestinationSlot).sentTrackIds) ∧
    handleSendToDestination [{demoSlot with sentTrackIds := ["t1"]}] (some "pl-src")
        "t1" 1 SendOutcome.okAdded =
      ⟨[{demoSlot with sentTrackIds := ["t1"]}], false⟩ :=
  ⟨send_idempotent_after_ok.1 [demoSlot] (some "pl-src") "t1" 1 SendOutcome.okAdded
      (Or.inl rfl) (by decide) {demoSlot with sentTrackIds := ["t1"]} (by decide) rfl,
   send_idempotent_after_ok.2 [{demoSlot with sentTrackIds := ["t1"]}] (some "pl-src")
      "t1" 1 SendOutcome.okAdded {demoSlot with sentTrackIds := ["t1"]} (by decide)
      (by decide)⟩

/-- C9: the destination select handler resets a slot's `sentTrackIds`
exactly when its target changes: clearing the slot or switching it to
new-playlist-pending mode empties the set, selecting a different
playlist id empties it, re-selecting the current playlist id preserves
it, and slots with a different id are left untouched. -/
theorem select_change_resets_sent :
    (∀ (pls : List Playlist) (slot : DestinationSlot),
        (applySelectChange pls "" slot).sentTrackIds = [] ∧
        (applySelectChange pls "" slot).mode = DestinationMode.noneMode) ∧
    (∀ (pls : List Playlist) (slot : DestinationSlot),
        (applySelectChange pls "__new__" slot).sentTrackIds = [] ∧
        (applySelectChange pls "__new__" slot).mode = DestinationMode.newMode) ∧
    (∀ (pls : List Playlist) (value : String) (slot : DestinationSlot),
        value ≠ "" → value ≠ "__new__" → slot.playlistId ≠ some value →
        (applySelectChange pls value slot).sentTrackIds = [] ∧
        (applySelectChange pls value slot).playlistId = some value) ∧
    (∀ (pls : List Playlist) (value : String) (slot : DestinationSlot),
        value ≠ "" → value ≠ "__new__" → slot.playlistId = some value →
        (applySelectChange pls value slot).sentTrackIds = slot.sentTrackIds) ∧
    (∀ (pls : List Playlist) (dests : List DestinationSlot) (slotId : Nat)
       (value : String) (s : DestinationSlot),
        s ∈ dests → s.id ≠ slotId →
        s ∈ handleDestinationSelectChange pls dests slotId value) := by
  refine ⟨?_, ?_, ?_, ?_, ?_⟩
  · intro pls slot
    unfold applySelectChange
    rw [if_pos rfl]
    exact ⟨rfl, rfl⟩
  · intro pls slot
    unfold applySelectChange
    rw [if_neg (by decide), if_pos rfl]
    exact ⟨rfl, rfl⟩
  · intro pls value slot hv1 hv2 hch
    unfold applySelectChange
    rw [if_neg hv1, if_neg hv2]
    dsimp only
    rw [if_pos hch]
    exact ⟨rfl, rfl⟩
  · intro pls value slot hv1 hv2 hsame
    unfold applySelectChange
    rw [if_neg hv1, if_neg hv2]
    dsimp only
    rw [if_neg (by simp [hsame])]
  · intro pls dests slotId value s hs hsid
    unfold handleDestinationSelectChange
    refine List.mem_map.mpr ⟨s, hs, ?_⟩
    rw [if_neg (by simp [hsid])]

theorem select_change_resets_sent_witness :
    ((applySelectChange [] "pl-x" {demoSlot with sentTrackIds := ["t1"]}).sentTrackIds
        = [] ∧
      (applySelectChange [] "pl-x" {demoSlot with
        sentTrackIds := ["t1"]}).playlistId = some "pl-x") ∧
    (applySelectChange [] "pl-dest" {demoSlot with sentTrackIds := ["t1"]}).sentTrackIds
        = ["t1"] ∧
    demoSlot ∈ handleDestinationSelectChange [] [demoSlot] 2 "" :=
  ⟨select_change_resets_sent.2.2.1 [] "pl-x" {demoSlot with sentTrackIds := ["t1"]}
      (by decide) (by decide) (by decide),
   select_change_resets_sent.2.2.2.1 [] "pl-dest" {demoSlot with sentTrackIds := ["t1"]}
      (by decide) (by decide) (by decide),
   select_change_resets_sent.2.2.2.2 [] [demoSlot] 2 "" demoSlot
      (List.mem_singleton.mpr rfl) (by decide)⟩

/-! ### The destination-add route (claim C8) -/

/-- C8: the destination-add endpoint performs a check-then-add against
at most the first 100 tracks of the target playlist: a hit returns a
duplicate result without issuing the add; a miss, or a failing duplicate
check, issues the add (reporting success when the add call itself does
not throw); and the outcome depends only on the first 100 tracks. -/
theorem destination_add_check_then_add :
    (∀ (playlistId trackUri : String) (playlist : List (Option String))
       (addThrows : Bool),
        playlistId ≠ "" → trackUri ≠ "" →
        some trackUri ∈ playlist.take 100 →
        destinationAddPOST playlistId trackUri playlist false addThrows =
          (AddResponse.duplicate playlistId, false)) ∧
    (∀ (playlistId trackUri : String) (playlist : List (Option String))
       (addThrows : Bool),
        playlistId ≠ "" → trackUri ≠ "" →
        some trackUri ∉ playlist.take 100 →
        (destinationAddPOST playlistId trackUri playlist false addThrows).2 = true ∧
        (addThrows = false →
          destinationAddPOST playlistId trackUri playlist false addThrows =
            (AddResponse.added playlistId, true))) ∧
    (∀ (playlistId trackUri : String) (playlist : List (Option String))
       (addThrows : Bool),
        playlistId ≠ "" → trackUri ≠ "" →
        (destinationAddPOST playlistId trackUri playlist true addThrows).2 = true ∧
        (addThrows = false →
          destinationAddPOST playlistId trackUri playlist true addThrows =
            (AddResponse.added playlistId, true))) ∧
    (∀ (playlistId trackUri : String) (p₁ p₂ : List (Option String))
       (dupeCheckThrows addThrows : Bool),
        p₁.take 100 = p₂.take 100 →
        destinationAddPOST playlistId trackUri p₁ dupeCheckThrows addThrows =
          destinationAddPOST playlistId trackUri p₂ dupeCheckThrows addThrows) := by
  refine ⟨?_, ?_, ?_, ?_⟩
  · intro pid uri playlist addThrows h1 h2 hhit
    unfold destinationAddPOST
    rw [if_neg (show ¬(pid = "" ∨ uri = "") by simp [h1, h2])]
    simp [hhit]
  · intro pid uri playlist addThrows h1 h2 hmiss
    unfold destinationAddPOST
    rw [if_neg (show ¬(pid = "" ∨ uri = "") by simp [h1, h2])]
    refine ⟨?_, ?_⟩
    · cases addThrows <;> simp [hmiss]
    · intro ht
      subst ht
      simp [hmiss]
  · intro pid uri playlist addThrows h1 h2
    unfold destinationAddPOST
    rw [if_neg (show ¬(pid = "" ∨ uri = "") by simp [h1, h2])]
    refine ⟨?_, ?_⟩
    · cases addThrows <;> simp
    · intro ht
      subst ht
      simp
  · intro pid uri p₁ p₂ dupeCheckThrows addThrows h100
    unfold destinationAddPOST
    rw [List.drop_zero, List.drop_zero, h100]

theorem destination_add_check_then_add_witness :
    destinationAddPOST "pl-dest" "uri:t1" [some "uri:t1"] false false =
      (AddResponse.duplicate "pl-dest", false) ∧
    destinationAddPOST "pl-dest" "uri:t1" [some "uri:t2"] false false =
      (AddResponse.added "pl-dest", true) ∧
    destinationAddPOST "pl-dest" "uri:t1" [some "uri:t1"] true false =
      (AddResponse.added "pl-dest", true) :=
  ⟨destination_add_check_then_add.1 "pl-dest" "uri:t1" [some "uri:t1"] false
      (by decide) (by decide) (by decide),
   (destination_add_check_then_add.2.1 "pl-dest" "uri:t1" [some "uri:t2"] false
      (by decide) (by decide) (by decide)).2 rfl,
   (destination_add_check_then_add.2.2.1 "pl-dest" "uri:t1" [some "uri:t1"] false
      (by decide) (by decide)).2 rfl⟩

/-! ### The iTunes preview route (claim C10) -/

/-- C10 counterexample: a rejected upstream fetch (a network error) is
not caught by the handler, so the endpoint does not respond 200 with a
JSON body — it propagates an error — contradicting "never returns an
error status". -/
theorem itunes_preview_error_counterexample :
    itunesPreviewGET "a" "" FetchResult.threw = (Except.error (), true) := by
  rfl

/-- C10 amended: unless the upstream fetch itself throws (an uncaught
rejection), the endpoint responds 200 with `previewUrl` a string or
null: null when the combined query is empty (no upstream request is
made), when the upstream responds non-ok, or when it returns no
results; otherwise the first result's preview url (or null). -/
theorem itunes_preview_total_unless_throw :
    (∀ (trackName artistName : String) (search : FetchResult ItunesData),
        search ≠ FetchResult.threw →
        ∃ p, (itunesPreviewGET trackName artistName search).1 = Except.ok p) ∧
    (∀ (trackName artistName : String) (search : FetchResult ItunesData),
        strTrim (trackName ++ " " ++ artistName) = "" →
        itunesPreviewGET trackName artistName search = (Except.ok none, false)) ∧
    (∀ (trackName artistName : String),
        strTrim (trackName ++ " " ++ artistName) ≠ "" →
        itunesPreviewGET trackName artistName FetchResult.httpError =
          (Except.ok none, true)) ∧
    (∀ (trackName artistName : String) (d : ItunesData),
        strTrim (trackName ++ " " ++ artistName) ≠ "" →
        (d.results = none ∨ d.results = some []) →
        itunesPreviewGET trackName artistName (FetchResult.ok d) =
          (Except.ok none, true)) ∧
    (∀ (trackName artistName : String) (first : ItunesResult)
       (rest : List ItunesResult),
        strTrim (trackName ++ " " ++ artistName) ≠ "" →
        itunesPreviewGET trackName artistName (FetchResult.ok ⟨some (first :: rest)⟩) =
          (Except.ok first.previewUrl, true)) := by
  refine ⟨?_, ?_, ?_, ?_, ?_⟩
  · intro tn an search hthrew
    unfold itunesPreviewGET
    by_cases hq : strTrim (tn ++ " " ++ an) = ""
    · rw [if_pos hq]
      exact ⟨none, rfl⟩
    · rw [if_neg hq]
      cases search with
      | ok d =>
          dsimp only
          cases hd : d.results with
          | none => exact ⟨none, rfl⟩
          | some rs =>
              cases rs with
              | nil => exact ⟨none, rfl⟩
              | cons first rest => exact ⟨first.previewUrl, rfl⟩
      | httpError => exact ⟨none, rfl⟩
      | threw => exact absurd rfl hthrew
  · intro tn an search hq
    unfold itunesPreviewGET
    rw [if_pos hq]
  · intro tn an hq
    unfold itunesPreviewGET
    rw [if_neg hq]
  · intro tn an d hq hres
    unfold itunesPreviewGET
    rw [if_neg hq]
    rcases hres with hres | hres <;> (dsimp only; rw [hres])
  · intro tn an first rest hq
    unfold itunesPreviewGET
    rw [if_neg hq]

theorem itunes_preview_total_unless_throw_witness :
    (∃ p, (itunesPreviewGET "song" "artist" FetchResult.httpError).1 = Except.ok p) ∧
    itunesPreviewGET "" "" FetchResult.httpError = (Except.ok none, false) ∧
    itunesPreviewGET "song" "artist"
        (FetchResult.ok ⟨some [⟨some "http://p/1.m4a"⟩]⟩) =
      (Except.ok (some "http://p/1.m4a"), true) :=
  ⟨itunes_preview_total_unless_throw.1 "song" "artist" FetchResult.httpError
      (by decide),
   itunes_preview_total_unless_throw.2.1 "" "" FetchResult.httpError (by decide),
   itunes_preview_total_unless_throw.2.2.2.2 "song" "artist" ⟨some "http://p/1.m4a"⟩ []
      (by decide)⟩

/-! ### Race-guard lemmas: what each atomic block can do -/

theorem teardownOther_spec (sh : Shared) :
    sh.counter ≤ (teardownOther sh).counter ∧
    (teardownOther sh).playLog = sh.playLog ∧
    (teardownOther sh).queries = sh.queries ∧
    (teardownOther sh).lastItunes = sh.lastItunes := by
  unfold teardownOther
  split
  · exact ⟨Nat.le_succ _, rfl, rfl, rfl⟩
  · exact ⟨le_refl _, rfl, rfl, rfl⟩

theorem startRun_spec (env : AttemptEnv) (t : Nat) (sh : Shared) (a : AttemptState) :
    sh.counter < (startRun env t sh a).1.counter ∧
    (startRun env t sh a).1.playLog = sh.playLog ∧
    (startRun env t sh a).2.pc ≠ PC.notStarted ∧
    ((startRun env t sh a).2.myId = a.myId ∨
      (startRun env t sh a).2.myId = (startRun env t sh a).1.counter) ∧
    (∀ q ∈ (startRun env t sh a).1.queries,
        q ∈ sh.queries ∨ ∀ l, q.2 = some l → l + 300 ≤ q.1) ∧
    (∀ w, (startRun env t sh a).2.pc = PC.sleeping w →
        ∃ l, (startRun env t sh a).2.lRead = some (some l) ∧ w = l + 300) := by
  obtain ⟨htc, htp, htq, htl⟩ := teardownOther_spec sh
  unfold startRun
  by_cases h0 : sh.playing = some env.tid
  · rw [if_pos h0]
    dsimp only
    refine ⟨Nat.lt_succ_self _, rfl, by simp, Or.inl rfl, fun q hq => Or.inl hq, ?_⟩
    intro w hw
    exact absurd hw (by simp)
  · rw [if_neg h0]
    dsimp only
    generalize hg : teardownOther sh = sh1 at htc htp htq htl
    cases henv : env.urlSource with
    | cachedNone =>
        dsimp only
        refine ⟨by omega, htp, by simp, Or.inr rfl, ?_, ?_⟩
        · intro q hq
          rw [htq] at hq
          exact Or.inl hq
        · intro w hw
          exact absurd hw (by simp)
    | direct u =>
        dsimp only
        refine ⟨by omega, htp, by simp, Or.inr rfl, ?_, ?_⟩
        · intro q hq
          rw [htq] at hq
          exact Or.inl hq
        · intro w hw
          exact absurd hw (by simp)
    | needFetch =>
        dsimp only
        cases hlast : sh1.lastItunes with
        | none =>
            dsimp only
            refine ⟨by omega, htp, by simp, Or.inr rfl, ?_, ?_⟩
            · intro q hq
              rw [htq] at hq
              rcases List.mem_append.mp hq with h | h
              · exact Or.inl h
              · right
                intro l hl
                simp at h
                subst h
                simp at hl
            · intro w hw
              exact absurd hw (by simp)
        | some l =>
            dsimp only
            by_cases ht : t < l + 300
            · rw [if_pos ht]
              dsimp only
              refine ⟨by omega, htp, by simp, Or.inr rfl, ?_, ?_⟩
              · intro q hq
                rw [htq] at hq
                exact Or.inl hq
              · intro w hw
                refine ⟨l, rfl, ?_⟩
                simpa using hw.symm
            · rw [if_neg ht]
              dsimp only
              refine ⟨by omega, htp, by simp, Or.inr rfl, ?_, ?_⟩
              · intro q hq
                rw [htq] at hq
                rcases List.mem_append.mp hq with h | h
                · exact Or.inl h
                · right
                  intro l2 hl2
                  simp at h
                  subst h
                  simp at hl2 ⊢
                  omega
              · intro w hw
                exact absurd hw (by simp)

theorem wakeRun_spec (t : Nat) (sh : Shared) (a : AttemptState) :
    (wakeRun t sh a).1.counter = sh.counter ∧
    (wakeRun t sh a).1.playLog = sh.playLog ∧
    (wakeRun t sh a).2.pc = PC.fetching ∧
    (wakeRun t sh a).2.myId = a.myId ∧
    (∀ q ∈ (wakeRun t sh a).1.queries,
        q ∈ sh.queries ∨ q = (t, a.lRead.getD none)) := by
  refine ⟨rfl, rfl, rfl, rfl, ?_⟩
  intro q hq
  rcases List.mem_append.mp hq with h | h
  · exact Or.inl h
  · right
    simpa using h

theorem fetchDoneRun_spec (env : AttemptEnv) (sh : Shared) (a : AttemptState) :
    (fetchDoneRun env sh a).1.counter = sh.counter ∧
    (fetchDoneRun env sh a).1.playLog = sh.playLog ∧
    (fetchDoneRun env sh a).1.queries = sh.queries ∧
    (fetchDoneRun env sh a).2.pc ≠ PC.notStarted ∧
    (∀ w, (fetchDoneRun env sh a).2.pc ≠ PC.sleeping w) ∧
    (fetchDoneRun env sh a).2.myId = a.myId := by
  unfold fetchDoneRun
  cases env.fetchedUrl with
  | none =>
      exact ⟨rfl, rfl, rfl, (by intro h; cases h), fun w => (by intro h; cases h), rfl⟩
  | some u =>
      dsimp only
      by_cases h : sh.counter ≠ a.myId
      · rw [if_pos h]
        exact ⟨rfl, rfl, rfl, (by intro h2; cases h2), fun w => (by intro h2; cases h2), rfl⟩
      · rw [if_neg h]
        exact ⟨rfl, rfl, rfl, (by intro h2; cases h2), fun w => (by intro h2; cases h2), rfl⟩

theorem playDoneRun_spec (i : Nat) (env : AttemptEnv) (sh : Shared) (a : AttemptState) :
    (playDoneRun i env sh a).1.counter = sh.counter ∧
    (playDoneRun i env sh a).1.queries = sh.queries ∧
    (playDoneRun i env sh a).2.pc = PC.done ∧
    (playDoneRun i env sh a).2.myId = a.myId ∧
    ((playDoneRun i env sh a).1.playLog = sh.playLog ∨
      (playDoneRun i env sh a).1.playLog = sh.playLog ++ [(i, env.tid)]) ∧
    (sh.counter ≠ a.myId → (playDoneRun i env sh a).1.playLog = sh.playLog) := by
  unfold playDoneRun
  by_cases h : env.playOk = true ∧ sh.counter = a.myId
  · rw [if_pos h]
    exact ⟨rfl, rfl, rfl, rfl, Or.inr rfl, fun hne => absurd h.2 hne⟩
  · rw [if_neg h]
    exact ⟨rfl, rfl, rfl, rfl, Or.inl rfl, fun _ => rfl⟩

theorem playLogFor_append_ne (i j : Nat) (x : String) (log : List (Nat × String))
    (h : j ≠ i) : playLogFor i (log ++ [(j, x)]) = playLogFor i log := by
  unfold playLogFor
  rw [List.filter_append]
  simp [h]

/-! ### Step-level preservation -/

theorem step_stale (s : MachineState) (e : Event) (i : Nat) (h : stale s i) :
    stale (step s e) i ∧
    playLogFor i (step s e).shared.playLog = playLogFor i s.shared.playLog := by
  obtain ⟨env, a, hget, hpc, hlt⟩ := h
  cases e with
  | start j t =>
      unfold step
      dsimp only
      cases hg : s.attempts[j]? with
      | none => exact ⟨⟨env, a, hget, hpc, hlt⟩, rfl⟩
      | some p =>
          obtain ⟨envj, aj⟩ := p
          dsimp only
          by_cases hpcj : aj.pc = PC.notStarted
          · rw [if_pos hpcj]
            dsimp only
            obtain ⟨hc, hpl, _, _, _, _⟩ := startRun_spec envj t s.shared aj
            have hij : i ≠ j := by
              intro hij
              subst hij
              rw [hget] at hg
              obtain ⟨rfl, rfl⟩ : env = envj ∧ a = aj := by simpa using hg
              exact hpc hpcj
            refine ⟨⟨env, a, ?_, hpc, lt_trans hlt hc⟩, ?_⟩
            · rw [List.getElem?_set_ne (Ne.symm hij)]
              exact hget
            · rw [hpl]
          · rw [if_neg hpcj]
            exact ⟨⟨env, a, hget, hpc, hlt⟩, rfl⟩
  | wake j t =>
      unfold step
      dsimp only
      cases hg : s.attempts[j]? with
      | none => exact ⟨⟨env, a, hget, hpc, hlt⟩, rfl⟩
      | some p =>
          obtain ⟨envj, aj⟩ := p
          dsimp only
          cases hpcj : aj.pc with
          | sleeping w =>
              dsimp only
              by_cases hw : w ≤ t
              · rw [if_pos hw]
                dsimp only
                obtain ⟨hc, hpl, hpcr, hmy, _⟩ := wakeRun_spec t s.shared aj
                by_cases hij : i = j
                · subst hij
                  rw [hget] at hg
                  obtain ⟨rfl, rfl⟩ : env = envj ∧ a = aj := by simpa using hg
                  have hlen : i < s.attempts.length := (List.getElem?_eq_some.mp hget).1
                  refine ⟨⟨env, (wakeRun t s.shared a).2, ?_, ?_, ?_⟩, by rw [hpl]⟩
                  · rw [List.getElem?_set_eq_of_lt _ hlen]
                  · rw [hpcr]
                    intro hx
                    cases hx
                  · rw [hmy, hc]
                    exact hlt
                · refine ⟨⟨env, a, ?_, hpc, ?_⟩, by rw [hpl]⟩
                  · rw [List.getElem?_set_ne (fun hx => hij hx.symm)]
                    exact hget
                  · rw [hc]
                    exact hlt
              · rw [if_neg hw]
                exact ⟨⟨env, a, hget, hpc, hlt⟩, rfl⟩
          | notStarted => exact ⟨⟨env, a, hget, hpc, hlt⟩, rfl⟩
          | fetching => exact ⟨⟨env, a, hget, hpc, hlt⟩, rfl⟩
          | awaitingPlay => exact ⟨⟨env, a, hget, hpc, hlt⟩, rfl⟩
          | done => exact ⟨⟨env, a, hget, hpc, hlt⟩, rfl⟩
  | fetchDone j =>
      unfold step
      dsimp only
      cases hg : s.attempts[j]? with
      | none => exact ⟨⟨env, a, hget, hpc, hlt⟩, rfl⟩
      | some p =>
          obtain ⟨envj, aj⟩ := p
          dsimp only
          by_cases hpcj : aj.pc = PC.fetching
          · rw [if_pos hpcj]
            dsimp only
            obtain ⟨hc, hpl, _, hpcr, _, hmy⟩ := fetchDoneRun_spec envj s.shared aj
            by_cases hij : i = j
            · subst hij
              rw [hget] at hg
              obtain ⟨rfl, rfl⟩ : env = envj ∧ a = aj := by simpa using hg
              have hlen : i < s.attempts.length := (List.getElem?_eq_some.mp hget).1
              refine ⟨⟨env, (fetchDoneRun env s.shared a).2, ?_, hpcr, ?_⟩, by rw [hpl]⟩
              · rw [List.getElem?_set_eq_of_lt _ hlen]
              · rw [hmy, hc]
                exact hlt
            · refine ⟨⟨env, a, ?_, hpc, ?_⟩, by rw [hpl]⟩
              · rw [List.getElem?_set_ne (fun hx => hij hx.symm)]
                exact hget
              · rw [hc]
                exact hlt
          · rw [if_neg hpcj]
            exact ⟨⟨env, a, hget, hpc, hlt⟩, rfl⟩
  | playDone j =>
      unfold step
      dsimp only
      cases hg : s.attempts[j]? with
      | none => exact ⟨⟨env, a, hget, hpc, hlt⟩, rfl⟩
      | some p =>
          obtain ⟨envj, aj⟩ := p
          dsimp only
          by_cases hpcj : aj.pc = PC.awaitingPlay
          · rw [if_pos hpcj]
            dsimp only
            obtain ⟨hc, _, hpcr, hmy, hplOr, hplNe⟩ := playDoneRun_spec j envj s.shared aj
            by_cases hij : i = j
            · subst hij
              rw [hget] at hg
              obtain ⟨rfl, rfl⟩ : env = envj ∧ a = aj := by simpa using hg
              have hlen : i < s.attempts.length := (List.getElem?_eq_some.mp hget).1
              have hplEq := hplNe (ne_of_gt hlt)
              refine ⟨⟨env, (playDoneRun i env s.shared a).2, ?_, ?_, ?_⟩, by rw [hplEq]⟩
              · rw [List.getElem?_set_eq_of_lt _ hlen]
              · rw [hpcr]
                intro hx
                cases hx
              · rw [hmy, hc]
                exact hlt
            · refine ⟨⟨env, a, ?_, hpc, ?_⟩, ?_⟩
              · rw [List.getElem?_set_ne (fun hx => hij hx.symm)]
                exact hget
              · rw [hc]
                exact hlt
              · rcases hplOr with hpl | hpl
                · rw [hpl]
                · rw [hpl, playLogFor_append_ne i j envj.tid _ (fun hx => hij hx.symm)]
          · rw [if_neg hpcj]
            exact ⟨⟨env, a, hget, hpc, hlt⟩, rfl⟩

theorem step_idsBounded (s : MachineState) (e : Event) (h : idsBounded s) :
    idsBounded (step s e) := by
  cases e with
  | start j t =>
      unfold step
      dsimp only
      cases hg : s.attempts[j]? with
      | none => exact h
      | some p =>
          obtain ⟨envj, aj⟩ := p
          dsimp only
          by_cases hpcj : aj.pc = PC.notStarted
          · rw [if_pos hpcj]
            obtain ⟨hc, _, _, hmy, _, _⟩ := startRun_spec envj t s.shared aj
            intro p hp
            rcases List.mem_or_eq_of_mem_set hp with hmem | rfl
            · exact le_trans (h p hmem) (le_of_lt hc)
            · rcases hmy with hmy | hmy
              · rw [hmy]
                exact le_trans (h (envj, aj) (List.getElem?_mem hg)) (le_of_lt hc)
              · rw [hmy]
          · rw [if_neg hpcj]
            exact h
  | wake j t =>
      unfold step
      dsimp only
      cases hg : s.attempts[j]? with
      | none => exact h
      | some p =>
          obtain ⟨envj, aj⟩ := p
          dsimp only
          cases hpcj : aj.pc with
          | sleeping w =>
              dsimp only
              by_cases hw : w ≤ t
              · rw [if_pos hw]
                obtain ⟨hc, _, _, hmy, _⟩ := wakeRun_spec t s.shared aj
                intro p hp
                rw [hc]
                rcases List.mem_or_eq_of_mem_set hp with hmem | rfl
                · exact h p hmem
                · rw [hmy]
                  exact h (envj, aj) (List.getElem?_mem hg)
              · rw [if_neg hw]
                exact h
          | notStarted => exact h
          | fetching => exact h
          | awaitingPlay => exact h
          | done => exact h
  | fetchDone j =>
      unfold step
      dsimp only
      cases hg : s.attempts[j]? with
      | none => exact h
      | some p =>
          obtain ⟨envj, aj⟩ := p
          dsimp only
          by_cases hpcj : aj.pc = PC.fetching
          · rw [if_pos hpcj]
            obtain ⟨hc, _, _, _, _, hmy⟩ := fetchDoneRun_spec envj s.shared aj
            intro p hp
            rw [hc]
            rcases List.mem_or_eq_of_mem_set hp with hmem | rfl
            · exact h p hmem
            · rw [hmy]
              exact h (envj, aj) (List.getElem?_mem hg)
          · rw [if_neg hpcj]
            exact h
  | playDone j =>
      unfold step
      dsimp only
      cases hg : s.attempts[j]? with
      | none => exact h
      | some p =>
          obtain ⟨envj, aj⟩ := p
          dsimp only
          by_cases hpcj : aj.pc = PC.awaitingPlay
          · rw [if_pos hpcj]
            obtain ⟨hc, _, _, hmy, _, _⟩ := playDoneRun_spec j envj s.shared aj
            intro p hp
            rw [hc]
            rcases List.mem_or_eq_of_mem_set hp with hmem | rfl
            · exact h p hmem
            · rw [hmy]
              exact h (envj, aj) (List.getElem?_mem hg)
          · rw [if_neg hpcj]
            exact h

theorem step_throttle (s : MachineState) (e : Event)
    (hq : queriesSpaced s) (hs : sleepConsistent s) :
    queriesSpaced (step s e) ∧ sleepConsistent (step s e) := by
  cases e with
  | start j t =>
      unfold step
      dsimp only
      cases hg : s.attempts[j]? with
      | none => exact ⟨hq, hs⟩
      | some p =>
          obtain ⟨envj, aj⟩ := p
          dsimp only
          by_cases hpcj : aj.pc = PC.notStarted
          · rw [if_pos hpcj]
            obtain ⟨_, _, _, _, hqr, hsleep⟩ := startRun_spec envj t s.shared aj
            constructor
            · intro q hqm l hl
              rcases hqr q hqm with hold | hnew
              · exact hq q hold l hl
              · exact hnew l hl
            · intro p hp w hw
              rcases List.mem_or_eq_of_mem_set hp with hmem | rfl
              · exact hs p hmem w hw
              · exact hsleep w hw
          · rw [if_neg hpcj]
            exact ⟨hq, hs⟩
  | wake j t =>
      unfold step
      dsimp only
      cases hg : s.attempts[j]? with
      | none => exact ⟨hq, hs⟩
      | some p =>
          obtain ⟨envj, aj⟩ := p
          dsimp only
          cases hpcj : aj.pc with
          | sleeping w0 =>
              dsimp only
              by_cases hw : w0 ≤ t
              · rw [if_pos hw]
                obtain ⟨_, _, hpcr, _, hqr⟩ := wakeRun_spec t s.shared aj
                obtain ⟨l, hlread, hweq⟩ :=
                  hs (envj, aj) (List.getElem?_mem hg) w0 hpcj
                constructor
                · intro q hqm l2 hl2
                  rcases hqr q hqm with hold | rfl
                  · exact hq q hold l2 hl2
                  · dsimp only at hl2 ⊢
                    rw [hlread] at hl2
                    simp at hl2
                    omega
                · intro p hp w hw2
                  rcases List.mem_or_eq_of_mem_set hp with hmem | rfl
                  · exact hs p hmem w hw2
                  · rw [hpcr] at hw2
                    cases hw2
              · rw [if_neg hw]
                exact ⟨hq, hs⟩
          | notStarted => exact ⟨hq, hs⟩
          | fetching => exact ⟨hq, hs⟩
          | awaitingPlay => exact ⟨hq, hs⟩
          | done => exact ⟨hq, hs⟩
  | fetchDone j =>
      unfold step
      dsimp only
      cases hg : s.attempts[j]? with
      | none => exact ⟨hq, hs⟩
      | some p =>
          obtain ⟨envj, aj⟩ := p
          dsimp only
          by_cases hpcj : aj.pc = PC.fetching
          · rw [if_pos hpcj]
            obtain ⟨_, _, hqe, _, hnosleep, _⟩ := fetchDoneRun_spec envj s.shared aj
            constructor
            · intro q hqm l hl
              rw [hqe] at hqm
              exact hq q hqm l hl
            · intro p hp w hw2
              rcases List.mem_or_eq_of_mem_set hp with hmem | rfl
              · exact hs p hmem w hw2
              · exact absurd hw2 (hnosleep w)
          · rw [if_neg hpcj]
            exact ⟨hq, hs⟩
  | playDone j =>
      unfold step
      dsimp only
      cases hg : s.attempts[j]? with
      | none => exact ⟨hq, hs⟩
      | some p =>
          obtain ⟨envj, aj⟩ := p
          dsimp only
          by_cases hpcj : aj.pc = PC.awaitingPlay
          · rw [if_pos hpcj]
            obtain ⟨_, hqe, hpcr, _, _, _⟩ := playDoneRun_spec j envj s.shared aj
            constructor
            · intro q hqm l hl
              rw [hqe] at hqm
              exact hq q hqm l hl
            · intro p hp w hw2
              rcases List.mem_or_eq_of_mem_set hp with hmem | rfl
              · exact hs p hmem w hw2
              · rw [hpcr] at hw2
                cases hw2
          · rw [if_neg hpcj]
            exact ⟨hq, hs⟩

/-! ### Run-level invariants -/

theorem run_stale (s : MachineState) (q : List Event) (i : Nat) (h : stale s i) :
    stale (run s q) i ∧
    playLogFor i (run s q).shared.playLog = playLogFor i s.shared.playLog := by
  induction q generalizing s with
  | nil => exact ⟨h, rfl⟩
  | cons e q ih =>
      obtain ⟨h1, h2⟩ := step_stale s e i h
      obtain ⟨h3, h4⟩ := ih (step s e) h1
      exact ⟨h3, h4.trans h2⟩

theorem run_idsBounded (s : MachineState) (q : List Event) (h : idsBounded s) :
    idsBounded (run s q) := by
  induction q generalizing s with
  | nil => exact h
  | cons e q ih => exact ih (step s e) (step_idsBounded s e h)

theorem initState_idsBounded (envs : List AttemptEnv) : idsBounded (initState envs) := by
  intro p hp
  obtain ⟨e, _, rfl⟩ := List.mem_map.mp hp
  exact Nat.le_refl 0

theorem run_throttle (s : MachineState) (q : List Event)
    (hq : queriesSpaced s) (hs : sleepConsistent s) :
    queriesSpaced (run s q) ∧ sleepConsistent (run s q) := by
  induction q generalizing s with
  | nil => exact ⟨hq, hs⟩
  | cons e q ih =>
      obtain ⟨h1, h2⟩ := step_throttle s e hq hs
      exact ih (step s e) h1 h2

theorem initState_throttle (envs : List AttemptEnv) :
    queriesSpaced (initState envs) ∧ sleepConsistent (initState envs) := by
  constructor
  · intro q hq
    simp [initState] at hq
  · intro p hp w hw
    obtain ⟨e, _, rfl⟩ := List.mem_map.mp hp
    simp [initAttempt] at hw

/-- C2: in every interleaving of preview attempts, (1) an attempt that
has run its synchronous prefix and whose captured request id differs
from the current counter never again appends to the play log — it
returns without setting `playingTrackId`; and (2) once a second attempt
for a different track starts, the earlier attempt never sets
`playingTrackId` from that point on: only the later request (which
captures a strictly larger id) may ever set the currently-playing
state. -/
theorem preview_race_guard :
    (∀ (envs : List AttemptEnv) (p q : List Event) (i : Nat)
       (env : AttemptEnv) (a : AttemptState),
        (run (initState envs) p).attempts[i]? = some (env, a) →
        a.pc ≠ PC.notStarted →
        a.myId ≠ (run (initState envs) p).shared.counter →
        playLogFor i (run (run (initState envs) p) q).shared.playLog =
          playLogFor i (run (initState envs) p).shared.playLog) ∧
    (∀ (envs : List AttemptEnv) (p q : List Event) (i j t : Nat)
       (envI envJ : AttemptEnv) (aI aJ : AttemptState),
        i ≠ j →
        (run (initState envs) p).attempts[i]? = some (envI, aI) →
        (run (initState envs) p).attempts[j]? = some (envJ, aJ) →
        aI.pc ≠ PC.notStarted → aJ.pc = PC.notStarted →
        envI.tid ≠ envJ.tid →
        playLogFor i
            (run (run (initState envs) p) (Event.start j t :: q)).shared.playLog =
          playLogFor i (run (initState envs) p).shared.playLog) := by
  constructor
  · intro envs p q i env a hget hpc hne
    have hb := run_idsBounded (initState envs) p (initState_idsBounded envs)
    have hle : a.myId ≤ (run (initState envs) p).shared.counter :=
      hb (env, a) (List.getElem?_mem hget)
    exact (run_stale _ q i ⟨env, a, hget, hpc, lt_of_le_of_ne hle hne⟩).2
  · intro envs p q i j t envI envJ aI aJ hij hgI hgJ hpcI hpcJ htid
    have hb := run_idsBounded (initState envs) p (initState_idsBounded envs)
    have hle : aI.myId ≤ (run (initState envs) p).shared.counter :=
      hb (envI, aI) (List.getElem?_mem hgI)
    have hstep : step (run (initState envs) p) (Event.start j t) =
        ⟨(startRun envJ t (run (initState envs) p).shared aJ).1,
          (run (initState envs) p).attempts.set j
            (envJ, (startRun envJ t (run (initState envs) p).shared aJ).2)⟩ := by
      unfold step
      dsimp only
      rw [hgJ]
      dsimp only
      rw [if_pos hpcJ]
    obtain ⟨hc, hpl, _, _, _, _⟩ :=
      startRun_spec envJ t (run (initState envs) p).shared aJ
    have hstale : stale (step (run (initState envs) p) (Event.start j t)) i := by
      rw [hstep]
      refine ⟨envI, aI, ?_, hpcI, lt_of_le_of_lt hle hc⟩
      rw [List.getElem?_set_ne (fun hx => hij hx.symm)]
      exact hgI
    have hrun := run_stale (step (run (initState envs) p) (Event.start j t)) q i hstale
    calc playLogFor i
          (run (run (initState envs) p) (Event.start j t :: q)).shared.playLog
        = playLogFor i
            (step (run (initState envs) p) (Event.start j t)).shared.playLog :=
          hrun.2
      _ = playLogFor i (run (initState envs) p).shared.playLog := by
          rw [hstep]
          dsimp only
          rw [hpl]

theorem preview_race_guard_witness :
    playLogFor 0 (run (run (initState [demoEnvFetch "A", demoEnvDirect "B"])
        [Event.start 0 0, Event.start 1 5])
        [Event.fetchDone 0, Event.playDone 0, Event.playDone 1]).shared.playLog =
      playLogFor 0 (run (initState [demoEnvFetch "A", demoEnvDirect "B"])
        [Event.start 0 0, Event.start 1 5]).shared.playLog ∧
    playLogFor 0 (run (run (initState [demoEnvFetch "A", demoEnvFetch "B"])
        [Event.start 0 0])
        (Event.start 1 10 :: [Event.fetchDone 0, Event.playDone 0])).shared.playLog =
      playLogFor 0 (run (initState [demoEnvFetch "A", demoEnvFetch "B"])
        [Event.start 0 0]).shared.playLog :=
  ⟨preview_race_guard.1 [demoEnvFetch "A", demoEnvDirect "B"]
      [Event.start 0 0, Event.start 1 5]
      [Event.fetchDone 0, Event.playDone 0, Event.playDone 1] 0
      (demoEnvFetch "A") ⟨PC.fetching, 1, some none⟩ (by decide) (by decide) (by decide),
   preview_race_guard.2 [demoEnvFetch "A", demoEnvFetch "B"] [Event.start 0 0]
      [Event.fetchDone 0, Event.playDone 0] 0 1 10
      (demoEnvFetch "A") (demoEnvFetch "B") ⟨PC.fetching, 1, some none⟩ initAttempt
      (by decide) (by decide) (by decide) (by decide) (by decide) (by decide)⟩

/-- C7 counterexample: with a query recorded at time 0, two attempts
entering the throttle at times 100 and 150 both read that time, both
sleep until 300, and both query at time 300 — two successive iTunes
queries 0 ms apart, violating the claimed 300 ms minimum gap between
any two successive queries. -/
theorem itunes_throttle_gap_counterexample :
    ((run (initState [demoEnvFetch "A", demoEnvFetch "B", demoEnvFetch "C"])
        [Event.start 0 0, Event.start 1 100, Event.start 2 150,
         Event.wake 1 300, Event.wake 2 300]).shared.queries.map Prod.fst) =
      [0, 300, 300] ∧ ¬ (300 + 300 ≤ (300 : Nat)) := by
  decide

/-- C7 amended: each attempt waits out the remaining gap measured from
the recorded previous-query time it read when entering the throttle —
every recorded iTunes query is issued at least 300 ms after that read
time — but two overlapping attempts can read the same recorded time and
then issue queries less than 300 ms apart, so the gap between
successive queries themselves is not guaranteed. -/
theorem itunes_queries_spaced_from_read (envs : List AttemptEnv) (tr : List Event) :
    ∀ q ∈ (run (initState envs) tr).shared.queries,
      ∀ l, q.2 = some l → l + 300 ≤ q.1 :=
  (run_throttle (initState envs) tr
    (initState_throttle envs).1 (initState_throttle envs).2).1

theorem itunes_queries_spaced_from_read_witness : (0 : Nat) + 300 ≤ 300 :=
  itunes_queries_spaced_from_read
    [demoEnvFetch "A", demoEnvFetch "B", demoEnvFetch "C"]
    [Event.start 0 0, Event.start 1 100, Event.start 2 150,
     Event.wake 1 300, Event.wake 2 300]
    (300, some 0) (by decide) 0 (by decide)

end CrateDigger
